import Mathlib

/-!
Verification of the 6502 CPU emulator and segmented MMU of this repository
(`emu.py`) against its natural-language specification.

The Python source is shallowly embedded below.  Conventions of the embedding:

* machine bytes and words are `Nat`; quantities that the Python code can drive
  negative (the program counter after an unmasked branch, intermediate
  subtraction results, stack-pointer arithmetic before masking) are `Int`;
* Python's `v & 0xff` on a possibly-negative unbounded int is the mathematical
  residue `v mod 256` (`band8` below); `v >> 8` on an int is floor division by
  256; `math.floor(a/b)` on the small integers involved is exact floor
  division (the double-precision quotient of integers below 2^17 by 0xff is
  never rounded past an integer boundary);
* Python exceptions become an error type `EmuErr` threaded through `Except`:
  a raised exception aborts the rest of the operation, and the exception
  *classes* `MemoryRangeError` / `ReadOnlyError` referenced (but not defined)
  in `emu.py` become constructors of `EmuErr`.
-/

set_option linter.unusedVariables false
set_option maxRecDepth 8192

/-- Errors of the emulator.  `MemoryRangeError` and `ReadOnlyError` are the
exception classes named at the `raise` sites in `MMU.addBlock` and `MMU.write`
(the spec calls them OverlapError and ReadOnlyViolationError);
`AddressOutOfRange` is the `IndexError` raised by `MMU.getBlock` and by
out-of-range array indexing; `UnimplementedOpcode` is the failure of
`CPU.step` on an empty dispatch slot (the spec's UnimplementedOpcodeError);
`ByteOverflowError` is the failure of storing a value above 255 into the
byte-array backing a block; `DispatchTypeError` marks operation/operand
combinations that the dispatch table never produces. -/
inductive EmuErr where
  | MemoryRangeError
  | AddressOutOfRange
  | ReadOnlyError
  | UnimplementedOpcode
  | ByteOverflowError
  | DispatchTypeError
deriving Repr, DecidableEq

instance {ε α : Type} [DecidableEq ε] [DecidableEq α] :
    DecidableEq (Except ε α) := fun u w =>
  match u, w with
  | .ok a, .ok b =>
    match decEq a b with
    | isTrue h => isTrue (h ▸ rfl)
    | isFalse h => isFalse (fun he => h (Except.ok.inj he))
  | .error a, .error b =>
    match decEq a b with
    | isTrue h => isTrue (h ▸ rfl)
    | isFalse h => isFalse (fun he => h (Except.error.inj he))
  | .ok _, .error _ => isFalse (fun he => Except.noConfusion he)
  | .error _, .ok _ => isFalse (fun he => Except.noConfusion he)

/-- Python's `v & 0xff` on an unbounded (two's-complement) int: the
non-negative residue of `v` modulo 256. -/
def band8 (v : Int) : Nat := (v % 256).toNat

/-- A block of memory of the MMU: the `newBlock` dict of `MMU.addBlock`
(`{'start': .., 'length': .., 'readonly': .., 'memory': ..}`). -/
structure Block where
  start : Int
  length : Int
  readonly : Bool
  memory : List Nat
deriving Repr, DecidableEq

/-- The MMU: an ordered collection of memory blocks. -/
structure MMU where
  blocks : List Block
deriving Repr, DecidableEq

namespace MMU

/-- The overlap test of `MMU.addBlock` (emu.py:791-792) for a new block
`(start, length)` against an existing block `b`. -/
def overlapB (start length : Int) (b : Block) : Bool :=
  (start + length > b.start && start + length < b.start + b.length) ||
  (b.start + b.length > start && b.start + b.length < start + length)

/-- The initial-value copy loop of `MMU.addBlock`
(`for i in range(len(value)): newBlock['memory'][i+valueOffset] = value[i]`).
Storing out of range raises `IndexError`; storing a value above 255 is
rejected by the `array('B')` element type. -/
def initCopy (mem : List Nat) (value : List Nat) (off : Nat) :
    Except EmuErr (List Nat) :=
  match value with
  | [] => .ok mem
  | v :: rest =>
    if off < mem.length then
      if v ≤ 0xff then initCopy (mem.set off v) rest (off + 1)
      else .error .ByteOverflowError
    else .error .AddressOutOfRange

/-- `MMU.addBlock(start, length, readonly, value, valueOffset)`: raises
`MemoryRangeError` when the overlap test fires against any existing block,
otherwise appends a fresh zero block of the given length, initialised from
`value` at `valueOffset`. -/
def addBlock (m : MMU) (start length : Int) (readonly : Bool)
    (value : Option (List Nat)) (valueOffset : Nat) : Except EmuErr MMU :=
  if m.blocks.any (overlapB start length) then .error .MemoryRangeError
  else
    match value with
    | none => .ok ⟨m.blocks ++ [⟨start, length, readonly, List.replicate length.toNat 0⟩]⟩
    | some v => do
      let mem ← initCopy (List.replicate length.toNat 0) v valueOffset
      .ok ⟨m.blocks ++ [⟨start, length, readonly, mem⟩]⟩

/-- `MMU.getBlock(addr)`: linear scan for the first block whose range
contains `addr`; raises `IndexError` when no block claims the address. -/
def getBlock : List Block → Int → Except EmuErr Block
  | [], _ => .error .AddressOutOfRange
  | b :: bs, addr =>
    if b.start ≤ addr ∧ addr < b.start + b.length then .ok b
    else getBlock bs addr

/-- `MMU.read(addr)`: the byte of the owning block at index
`addr - block.start`. -/
def read (m : MMU) (addr : Int) : Except EmuErr Nat := do
  let b ← getBlock m.blocks addr
  match b.memory.get? (addr - b.start).toNat with
  | some v => .ok v
  | none => .error .AddressOutOfRange

/-- The recursion of `MMU.write` over the block list: the first block whose
range contains `addr` is updated in place (Python mutates the found block
object); a read-only owner raises `ReadOnlyError` *before* any mutation. -/
def writeBlocks : List Block → Int → Int → Except EmuErr (List Block)
  | [], _, _ => .error .AddressOutOfRange
  | b :: bs, addr, value =>
    if b.start ≤ addr ∧ addr < b.start + b.length then
      if b.readonly then .error .ReadOnlyError
      else
        if (addr - b.start).toNat < b.memory.length then
          .ok ({ b with memory := b.memory.set (addr - b.start).toNat (band8 value) } :: bs)
        else .error .AddressOutOfRange
    else do
      let bs' ← writeBlocks bs addr value
      .ok (b :: bs')

/-- `MMU.write(addr, value)`: stores `value & 0xff` at offset
`addr - block.start` of the owning block. -/
def write (m : MMU) (addr value : Int) : Except EmuErr MMU := do
  let bs ← writeBlocks m.blocks addr value
  .ok ⟨bs⟩

/-- Modelled from the spec: `MMU.readWord` is called by
`CPU.interruptAddress` (emu.py:154) but is not defined anywhere in the
repository's source; the spec defines it as two sequential byte reads with
little-endian composition (`low = read(addr)`, `high = read(addr+1)`,
value = `high<<8 | low`). -/
def readWord (m : MMU) (addr : Int) : Except EmuErr Nat := do
  let low ← m.read addr
  let high ← m.read (addr + 1)
  .ok ((high <<< 8) ||| low)

end MMU

/-- The seven named status flags (keys of `Registers.flagBit`). -/
inductive CpuFlag where
  | N | V | B | D | I | Z | C
deriving Repr, DecidableEq

/-- `Registers.flagBit`: the bit mask of each named flag. -/
def flagBit : CpuFlag → Nat
  | .N => 128
  | .V => 64
  | .B => 16
  | .D => 8
  | .I => 4
  | .Z => 2
  | .C => 1

/-- The bit index of each named flag (`flagBit f = 2 ^ flagIdx f`). -/
def flagIdx : CpuFlag → Nat
  | .N => 7
  | .V => 6
  | .B => 4
  | .D => 3
  | .I => 2
  | .Z => 1
  | .C => 0

/-- The CPU register file.  `pc` is an `Int` because the source never masks
the program counter in `nextByte` or in taken branches, so it can leave
0..0xFFFF (and even go negative). -/
structure Registers where
  a : Nat
  x : Nat
  y : Nat
  s : Nat
  pc : Int
  p : Nat
deriving Repr, DecidableEq

namespace Registers

/-- `Registers.getFlag`: truthiness of `p & flagBit[flag]`. -/
def getFlag (r : Registers) (f : CpuFlag) : Bool := r.p &&& flagBit f != 0

/-- `Registers.clearFlag`: `p = p & (255 - flagBit[flag])`. -/
def clearFlag (r : Registers) (f : CpuFlag) : Registers :=
  { r with p := r.p &&& (255 - flagBit f) }

/-- `Registers.setFlag(flag, v)`. -/
def setFlag (r : Registers) (f : CpuFlag) (v : Bool) : Registers :=
  if v then { r with p := r.p ||| flagBit f } else r.clearFlag f

/-- `Registers.clearFlags`: `p = 0`. -/
def clearFlags (r : Registers) : Registers := { r with p := 0 }

/-- `Registers.ZN(v)`: Z iff the value is zero, N from bit 7. -/
def ZN (r : Registers) (v : Nat) : Registers :=
  (r.setFlag .Z (v == 0)).setFlag .N (v &&& 0x80 != 0)

/-- `Registers.reset(pc)` (Python defaults shown at emu.py:12-28). -/
def reset (pc : Int) : Registers :=
  { a := 0, x := 0, y := 0, s := 0xff, pc := pc, p := 0b00100100 }

end Registers

/-- The CPU state: the register file `r`, the shared `mmu`, the per-step
cycle counter `cc`, the stack page and the `magic` configuration byte
(held for the unimplemented undocumented opcodes; inert otherwise). -/
structure CPUState where
  r : Registers
  mmu : MMU
  cc : Nat
  stack_page : Nat
  magic : Nat
deriving Repr, DecidableEq

namespace CPU

/-- `CPU.nextByte`: read the byte at `pc`, then `pc += 1` — with no 16-bit
mask, exactly as in the source (emu.py:109-112). -/
def nextByte (s : CPUState) : Except EmuErr (Nat × CPUState) :=
  match s.mmu.read s.r.pc with
  | .error e => .error e
  | .ok v => .ok (v, { s with r := { s.r with pc := s.r.pc + 1 } })

/-- `CPU.nextWord`: two byte fetches, little-endian. -/
def nextWord (s : CPUState) : Except EmuErr (Nat × CPUState) := do
  let (low, s1) ← nextByte s
  let (high, s2) ← nextByte s1
  .ok ((high <<< 8) + low, s2)

/-- `CPU.stackPush(v)`: write `v` to `stack_page*0x100 + s`, then
`s = (s - 1) & 0xff`. -/
def stackPush (s : CPUState) (v : Int) : Except EmuErr CPUState := do
  let m ← s.mmu.write (s.stack_page * 0x100 + s.r.s : Nat) v
  .ok { s with mmu := m, r := { s.r with s := band8 ((s.r.s : Int) - 1) } }

/-- `CPU.stackPushWord(v)`: push `v >> 8` (arithmetic shift: floor division
by 256) then `v & 0xff` (residue mod 256). -/
def stackPushWord (s : CPUState) (v : Int) : Except EmuErr CPUState := do
  let s1 ← stackPush s (Int.fdiv v 256)
  stackPush s1 (v % 256)

/-- `CPU.stackPop`: read `stack_page*0x100 + ((s + 1) & 0xff)`, then
`s = (s + 1) & 0xff`. -/
def stackPop (s : CPUState) : Except EmuErr (Nat × CPUState) := do
  let v ← s.mmu.read (s.stack_page * 0x100 + band8 ((s.r.s : Int) + 1) : Nat)
  .ok (v, { s with r := { s.r with s := band8 ((s.r.s : Int) + 1) } })

/-- `CPU.stackPopWord`: pop low byte then high byte. -/
def stackPopWord (s : CPUState) : Except EmuErr (Nat × CPUState) := do
  let (v1, s1) ← stackPop s
  let (v2, s2) ← stackPop s1
  .ok (v1 + (v2 <<< 8), s2)

/-- `CPU.fromBCD(v) = (((v & 0xf0) // 0x10) * 10) + (v & 0xf)`. -/
def fromBCD (v : Nat) : Nat := ((v &&& 0xf0) / 0x10) * 10 + (v &&& 0xf)

/-- `CPU.toBCD(v) = floor(v/10)*16 + (v % 10)`. -/
def toBCD (v : Nat) : Nat := (v / 10) * 16 + v % 10

/-- `CPU.fromTwosCom(v) = (v & 0x7f) - (v & 0x80)`. -/
def fromTwosCom (v : Nat) : Int := ((v &&& 0x7f : Nat) : Int) - ((v &&& 0x80 : Nat) : Int)

/-- The keys of the `CPU.interrupts` vector table. -/
inductive Interrupt where
  | ABORT | COP | IRQ | BRK | NMI | RESET
deriving Repr, DecidableEq

/-- `CPU.interrupts`: the fixed vector addresses. -/
def interrupts : Interrupt → Nat
  | .ABORT => 0xfff8
  | .COP => 0xfff4
  | .IRQ => 0xfffe
  | .BRK => 0xfffe
  | .NMI => 0xfffa
  | .RESET => 0xfffc

/-- `CPU.interruptAddress(i)`: the little-endian word at the vector. -/
def interruptAddress (s : CPUState) (i : Interrupt) : Except EmuErr Nat :=
  s.mmu.readWord (interrupts i)

/-- Zero-page address mode `z_a`. -/
def z_a (s : CPUState) : Except EmuErr (Nat × CPUState) := nextByte s

/-- Zero-page,X address mode `zx_a`. -/
def zx_a (s : CPUState) : Except EmuErr (Nat × CPUState) := do
  let (v, s1) ← nextByte s
  .ok ((v + s1.r.x) &&& 0xff, s1)

/-- Zero-page,Y address mode `zy_a`. -/
def zy_a (s : CPUState) : Except EmuErr (Nat × CPUState) := do
  let (v, s1) ← nextByte s
  .ok ((v + s1.r.y) &&& 0xff, s1)

/-- Absolute address mode `a_a`. -/
def a_a (s : CPUState) : Except EmuErr (Nat × CPUState) := nextWord s

/-- Absolute,X address mode `ax_a`: one extra cycle when
`math.floor(o/0xff) != math.floor(a/0xff)` (exact floor division on these
magnitudes). -/
def ax_a (s : CPUState) : Except EmuErr (Nat × CPUState) := do
  let (o, s1) ← nextWord s
  let a := o + s1.r.x
  let s2 := if o / 0xff ≠ a / 0xff then { s1 with cc := s1.cc + 1 } else s1
  .ok (a &&& 0xffff, s2)

/-- Absolute,Y address mode `ay_a`. -/
def ay_a (s : CPUState) : Except EmuErr (Nat × CPUState) := do
  let (o, s1) ← nextWord s
  let a := o + s1.r.y
  let s2 := if o / 0xff ≠ a / 0xff then { s1 with cc := s1.cc + 1 } else s1
  .ok (a &&& 0xffff, s2)

/-- Indirect address mode `i_a` (only used by indirect JMP), with the 6502
page-wrap bug: when the pointer's low byte is `0xff` the high byte comes
from `pointer - 0xff` rather than `pointer + 1`. -/
def i_a (s : CPUState) : Except EmuErr (Nat × CPUState) := do
  let (i, s1) ← nextWord s
  let j := if i &&& 0xff == 0xff then i - 0xff else i + 1
  let hi ← s1.mmu.read j
  let lo ← s1.mmu.read i
  .ok (((hi <<< 8) + lo) &&& 0xffff, s1)

/-- Indexed-indirect (X) address mode `ix_a`. -/
def ix_a (s : CPUState) : Except EmuErr (Nat × CPUState) := do
  let (v, s1) ← nextByte s
  let i := (v + s1.r.x) &&& 0xff
  let hi ← s1.mmu.read (((i + 1) &&& 0xff : Nat))
  let lo ← s1.mmu.read i
  .ok (((hi <<< 8) + lo) &&& 0xffff, s1)

/-- Indirect-indexed (Y) address mode `iy_a`, with the same
divide-by-`0xff` page-crossing test as `ax_a`/`ay_a`. -/
def iy_a (s : CPUState) : Except EmuErr (Nat × CPUState) := do
  let (i, s1) ← nextByte s
  let hi ← s1.mmu.read (((i + 1) &&& 0xff : Nat))
  let lo ← s1.mmu.read i
  let o := (hi <<< 8) + lo
  let a := o + s1.r.y
  let s2 := if o / 0xff ≠ a / 0xff then { s1 with cc := s1.cc + 1 } else s1
  .ok (a &&& 0xffff, s2)

/-- Immediate value mode `im`. -/
def im (s : CPUState) : Except EmuErr (Nat × CPUState) := nextByte s

/-- Zero-page value mode `z`. -/
def z (s : CPUState) : Except EmuErr (Nat × CPUState) := do
  let (ad, s1) ← z_a s
  let v ← s1.mmu.read ad
  .ok (v, s1)

/-- Zero-page,X value mode `zx`. -/
def zx (s : CPUState) : Except EmuErr (Nat × CPUState) := do
  let (ad, s1) ← zx_a s
  let v ← s1.mmu.read ad
  .ok (v, s1)

/-- Zero-page,Y value mode `zy`. -/
def zy (s : CPUState) : Except EmuErr (Nat × CPUState) := do
  let (ad, s1) ← zy_a s
  let v ← s1.mmu.read ad
  .ok (v, s1)

/-- Absolute value mode `a`. -/
def a (s : CPUState) : Except EmuErr (Nat × CPUState) := do
  let (ad, s1) ← a_a s
  let v ← s1.mmu.read ad
  .ok (v, s1)

/-- Absolute,X value mode `ax`. -/
def ax (s : CPUState) : Except EmuErr (Nat × CPUState) := do
  let (ad, s1) ← ax_a s
  let v ← s1.mmu.read ad
  .ok (v, s1)

/-- Absolute,Y value mode `ay`. -/
def ay (s : CPUState) : Except EmuErr (Nat × CPUState) := do
  let (ad, s1) ← ay_a s
  let v ← s1.mmu.read ad
  .ok (v, s1)

/-- Indirect value mode `i`. -/
def i (s : CPUState) : Except EmuErr (Nat × CPUState) := do
  let (ad, s1) ← i_a s
  let v ← s1.mmu.read ad
  .ok (v, s1)

/-- Indexed-indirect (X) value mode `ix`. -/
def ix (s : CPUState) : Except EmuErr (Nat × CPUState) := do
  let (ad, s1) ← ix_a s
  let v ← s1.mmu.read ad
  .ok (v, s1)

/-- Indirect-indexed (Y) value mode `iy`. -/
def iy (s : CPUState) : Except EmuErr (Nat × CPUState) := do
  let (ad, s1) ← iy_a s
  let v ← s1.mmu.read ad
  .ok (v, s1)

/-- Truthiness of the overflow expression `(~(v1 ^ v2)) & (v1 ^ r) & 0x80`
of `CPU.ADC` (emu.py:524).  Only bit 7 survives the `& 0x80`, so Python's
unbounded-int `~` reduces to xor with `0xff`, and bit 7 of the
(possibly > 255) sum `r` is read directly. -/
def adcV (v1 v2 r : Nat) : Bool :=
  ((0xff ^^^ (v1 ^^^ v2)) &&& (v1 ^^^ r) &&& 0x80) != 0

/-- Truthiness of `((v1 ^ v2) & (v1 ^ r) & 0x80)` of `CPU.SBC`
(emu.py:721).  `r` may be negative; bit 7 of a negative Python int in
two's complement is bit 7 of `r mod 256`. -/
def sbcV (v1 v2 : Nat) (r : Int) : Bool :=
  ((v1 ^^^ v2) &&& (v1 ^^^ band8 r) &&& 0x80) != 0

/-- `CPU.ADC(v2)` (emu.py:507-524): decimal mode converts from packed BCD,
adds mod 100 and re-encodes; binary mode adds with 8-bit wrap.  The shared
tail updates Z/N from the new accumulator and V from the branch's own sum
`r`. -/
def ADC (v2 : Nat) (s : CPUState) : CPUState :=
  let v1 := s.r.a
  let (rg, r) :=
    if s.r.getFlag .D then
      let d1 := fromBCD v1
      let d2 := fromBCD v2
      let r := d1 + d2 + (if s.r.getFlag .C then 1 else 0)
      (({ s.r with a := toBCD (r % 100) }).setFlag .C (decide (r > 99)), r)
    else
      let r := v1 + v2 + (if s.r.getFlag .C then 1 else 0)
      (({ s.r with a := r &&& 0xff }).setFlag .C (decide (r > 0xff)), r)
  let rg := rg.ZN rg.a
  { s with r := rg.setFlag .V (adcV v1 v2 r) }

/-- `CPU.AND(v)`. -/
def AND (v : Nat) (s : CPUState) : CPUState :=
  let rg := { s.r with a := (s.r.a &&& v) &&& 0xff }
  { s with r := rg.ZN rg.a }

/-- `CPU.ASL('a')`: the accumulator arm of `CPU.ASL`. -/
def ASL_acc (s : CPUState) : CPUState :=
  let v := s.r.a <<< 1
  let rg := { s.r with a := v &&& 0xff }
  let rg := rg.setFlag .C (decide (v > 0xff))
  { s with r := rg.ZN (v &&& 0xff) }

/-- `CPU.ASL(a)`: the memory arm of `CPU.ASL`. -/
def ASL_mem (ad : Nat) (s : CPUState) : Except EmuErr CPUState := do
  let v0 ← s.mmu.read ad
  let v := v0 <<< 1
  let m ← s.mmu.write ad (v : Int)
  let rg := s.r.setFlag .C (decide (v > 0xff))
  .ok { s with mmu := m, r := rg.ZN (v &&& 0xff) }

/-- `CPU.BIT(v)`: Z from `a & v`, N and V copied from bits 7 and 6 of the
operand. -/
def BIT (v : Nat) (s : CPUState) : CPUState :=
  let rg := s.r.setFlag .Z (s.r.a &&& v == 0)
  let rg := rg.setFlag .N (v &&& 0x80 != 0)
  { s with r := rg.setFlag .V (v &&& 0x40 != 0) }

/-- `CPU.B(v)`: branch when flag `f` equals `b`; the displacement byte is
two's-complement decoded and added to `pc` with no mask; +1 or +2 cycles
from the `math.floor(/0xff)` boundary test on old and new `pc`. -/
def B (f : CpuFlag) (b : Bool) (s : CPUState) : Except EmuErr CPUState := do
  let (d, s1) ← im s
  if s1.r.getFlag f == b then
    let o := s1.r.pc
    let pc2 := s1.r.pc + fromTwosCom d
    let s2 := { s1 with r := { s1.r with pc := pc2 } }
    if Int.fdiv o 0xff == Int.fdiv pc2 0xff then
      .ok { s2 with cc := s2.cc + 1 }
    else
      .ok { s2 with cc := s2.cc + 2 }
  else
    .ok s1

/-- `CPU.BRK` (emu.py:560-565): set B, push `pc+1` then the status byte,
set I, and jump to the BRK vector's word.  The dispatched dummy operand
(`1`) is ignored. -/
def BRK (s : CPUState) : Except EmuErr CPUState := do
  let s := { s with r := s.r.setFlag .B true }
  let s ← stackPushWord s (s.r.pc + 1)
  let s ← stackPush s (s.r.p : Int)
  let s := { s with r := s.r.setFlag .I true }
  let w ← interruptAddress s .BRK
  .ok { s with r := { s.r with pc := (w : Int) } }

/-- `CPU.CP(r, v)`: the shared compare helper. -/
def CP (rv v : Nat) (s : CPUState) : CPUState :=
  let o := band8 ((rv : Int) - v)
  let rg := s.r.setFlag .Z (o == 0)
  let rg := rg.setFlag .C (decide (v ≤ rv))
  { s with r := rg.setFlag .N (o &&& 0x80 != 0) }

/-- `CPU.CMP(v)`. -/
def CMP (v : Nat) (s : CPUState) : CPUState := CP s.r.a v s

/-- `CPU.CPX(v)`. -/
def CPX (v : Nat) (s : CPUState) : CPUState := CP s.r.x v s

/-- `CPU.CPY(v)`. -/
def CPY (v : Nat) (s : CPUState) : CPUState := CP s.r.y v s

/-- `CPU.DEC(a)`. -/
def DEC (ad : Nat) (s : CPUState) : Except EmuErr CPUState := do
  let v0 ← s.mmu.read ad
  let v := band8 ((v0 : Int) - 1)
  let m ← s.mmu.write ad (v : Int)
  .ok { s with mmu := m, r := s.r.ZN v }

/-- `CPU.DEX`. -/
def DEX (s : CPUState) : CPUState :=
  let xv := band8 ((s.r.x : Int) - 1)
  { s with r := ({ s.r with x := xv }).ZN xv }

/-- `CPU.DEY`. -/
def DEY (s : CPUState) : CPUState :=
  let yv := band8 ((s.r.y : Int) - 1)
  { s with r := ({ s.r with y := yv }).ZN yv }

/-- `CPU.EOR(v)`: note the source applies no 8-bit mask here. -/
def EOR (v : Nat) (s : CPUState) : CPUState :=
  let rg := { s.r with a := s.r.a ^^^ v }
  { s with r := rg.ZN rg.a }

/-- `CPU.SE(v)`: set the named flag. -/
def SE (f : CpuFlag) (s : CPUState) : CPUState :=
  { s with r := s.r.setFlag f true }

/-- `CPU.CL(v)`: clear the named flag. -/
def CL (f : CpuFlag) (s : CPUState) : CPUState :=
  { s with r := s.r.clearFlag f }

/-- `CPU.INC(a)`. -/
def INC (ad : Nat) (s : CPUState) : Except EmuErr CPUState := do
  let v0 ← s.mmu.read ad
  let v := (v0 + 1) &&& 0xff
  let m ← s.mmu.write ad (v : Int)
  .ok { s with mmu := m, r := s.r.ZN v }

/-- `CPU.INX`. -/
def INX (s : CPUState) : CPUState :=
  let xv := (s.r.x + 1) &&& 0xff
  { s with r := ({ s.r with x := xv }).ZN xv }

/-- `CPU.INY`. -/
def INY (s : CPUState) : CPUState :=
  let yv := (s.r.y + 1) &&& 0xff
  { s with r := ({ s.r with y := yv }).ZN yv }

/-- `CPU.JMP(a)`. -/
def JMP (ad : Nat) (s : CPUState) : CPUState :=
  { s with r := { s.r with pc := (ad : Int) } }

/-- `CPU.JSR(a)`: push `pc-1`, then jump. -/
def JSR (ad : Nat) (s : CPUState) : Except EmuErr CPUState := do
  let s1 ← stackPushWord s (s.r.pc - 1)
  .ok { s1 with r := { s1.r with pc := (ad : Int) } }

/-- `CPU.LDA(v)`. -/
def LDA (v : Nat) (s : CPUState) : CPUState :=
  let rg := { s.r with a := v }
  { s with r := rg.ZN rg.a }

/-- `CPU.LDX(v)`. -/
def LDX (v : Nat) (s : CPUState) : CPUState :=
  let rg := { s.r with x := v }
  { s with r := rg.ZN rg.x }

/-- `CPU.LDY(v)`. -/
def LDY (v : Nat) (s : CPUState) : CPUState :=
  let rg := { s.r with y := v }
  { s with r := rg.ZN rg.y }

/-- `CPU.LSR('a')`: the accumulator arm of `CPU.LSR` (Carry is set from
bit 0 *before* the shift). -/
def LSR_acc (s : CPUState) : CPUState :=
  let rg := s.r.setFlag .C (s.r.a &&& 0x01 != 0)
  let v := rg.a >>> 1
  let rg := { rg with a := v }
  { s with r := rg.ZN v }

/-- `CPU.LSR(a)`: the memory arm of `CPU.LSR`. -/
def LSR_mem (ad : Nat) (s : CPUState) : Except EmuErr CPUState := do
  let v0 ← s.mmu.read ad
  let rg := s.r.setFlag .C (v0 &&& 0x01 != 0)
  let v := v0 >>> 1
  let m ← s.mmu.write ad (v : Int)
  .ok { s with mmu := m, r := rg.ZN v }

/-- `CPU.NOP`: no state change. -/
def NOP (s : CPUState) : CPUState := s

/-- `CPU.ORA(v)`. -/
def ORA (v : Nat) (s : CPUState) : CPUState :=
  let rg := { s.r with a := s.r.a ||| v }
  { s with r := rg.ZN rg.a }

/-- The register operand of `CPU.P`: the accumulator or the status byte. -/
inductive PReg where
  | a | p
deriving Repr, DecidableEq

/-- The push arm of `CPU.P` (PHA/PHP). -/
def P_push (rn : PReg) (s : CPUState) : Except EmuErr CPUState :=
  match rn with
  | .a => stackPush s (s.r.a : Int)
  | .p => stackPush s (s.r.p : Int)

/-- The pull arm of `CPU.P` (PLA/PLP): pulling into the accumulator
updates Z/N; pulling into the status byte forces bit `0b00100000`. -/
def P_pull (rn : PReg) (s : CPUState) : Except EmuErr CPUState := do
  let (v, s1) ← stackPop s
  match rn with
  | .a =>
    let rg := { s1.r with a := v }
    .ok { s1 with r := rg.ZN rg.a }
  | .p =>
    .ok { s1 with r := { s1.r with p := v ||| 0b00100000 } }

/-- `CPU.ROL('a')`: the accumulator arm of `CPU.ROL`. -/
def ROL_acc (s : CPUState) : CPUState :=
  let v_old := s.r.a
  let v_new := ((v_old <<< 1) + (if s.r.getFlag .C then 1 else 0)) &&& 0xff
  let rg := { s.r with a := v_new }
  let rg := rg.setFlag .C (v_old &&& 0x80 != 0)
  { s with r := rg.ZN v_new }

/-- `CPU.ROL(a)`: the memory arm of `CPU.ROL`. -/
def ROL_mem (ad : Nat) (s : CPUState) : Except EmuErr CPUState := do
  let v_old ← s.mmu.read ad
  let v_new := ((v_old <<< 1) + (if s.r.getFlag .C then 1 else 0)) &&& 0xff
  let m ← s.mmu.write ad (v_new : Int)
  let rg := s.r.setFlag .C (v_old &&& 0x80 != 0)
  .ok { s with mmu := m, r := rg.ZN v_new }

/-- `CPU.ROR('a')`: the accumulator arm of `CPU.ROR`. -/
def ROR_acc (s : CPUState) : CPUState :=
  let v_old := s.r.a
  let v_new := ((v_old >>> 1) + (if s.r.getFlag .C then 1 else 0) * 0x80) &&& 0xff
  let rg := { s.r with a := v_new }
  let rg := rg.setFlag .C (v_old &&& 0x01 != 0)
  { s with r := rg.ZN v_new }

/-- `CPU.ROR(a)`: the memory arm of `CPU.ROR`. -/
def ROR_mem (ad : Nat) (s : CPUState) : Except EmuErr CPUState := do
  let v_old ← s.mmu.read ad
  let v_new := ((v_old >>> 1) + (if s.r.getFlag .C then 1 else 0) * 0x80) &&& 0xff
  let m ← s.mmu.write ad (v_new : Int)
  let rg := s.r.setFlag .C (v_old &&& 0x01 != 0)
  .ok { s with mmu := m, r := rg.ZN v_new }

/-- `CPU.RTI`: pop status, then pop `pc` (no +1 adjustment). -/
def RTI (s : CPUState) : Except EmuErr CPUState := do
  let (pv, s1) ← stackPop s
  let s1 := { s1 with r := { s1.r with p := pv } }
  let (w, s2) ← stackPopWord s1
  .ok { s2 with r := { s2.r with pc := (w : Int) } }

/-- `CPU.RTS`: pop a word, `pc = (word + 1) & 0xffff`. -/
def RTS (s : CPUState) : Except EmuErr CPUState := do
  let (w, s1) ← stackPopWord s
  .ok { s1 with r := { s1.r with pc := (((w + 1) &&& 0xffff : Nat) : Int) } }

/-- `CPU.SBC(v2)` (emu.py:709-722): decimal mode subtracts in BCD mod 100;
binary mode subtracts with borrow.  C, V and Z/N are set in the shared
tail, V from the branch's own difference `r`. -/
def SBC (v2 : Nat) (s : CPUState) : CPUState :=
  let v1 := s.r.a
  let (rg, r) :=
    if s.r.getFlag .D then
      let d1 := fromBCD v1
      let d2 := fromBCD v2
      let r : Int := (d1 : Int) - d2 - (if s.r.getFlag .C then 0 else 1)
      ({ s.r with a := toBCD (r % 100).toNat }, r)
    else
      let r : Int := (v1 : Int) - v2 - (if s.r.getFlag .C then 0 else 1)
      ({ s.r with a := band8 r }, r)
  let rg := rg.setFlag .C (decide (r ≥ 0))
  let rg := rg.setFlag .V (sbcV v1 v2 r)
  { s with r := rg.ZN rg.a }

/-- `CPU.STA(a)`. -/
def STA (ad : Nat) (s : CPUState) : Except EmuErr CPUState := do
  let m ← s.mmu.write ad (s.r.a : Int)
  .ok { s with mmu := m }

/-- `CPU.STX(a)`. -/
def STX (ad : Nat) (s : CPUState) : Except EmuErr CPUState := do
  let m ← s.mmu.write ad (s.r.x : Int)
  .ok { s with mmu := m }

/-- `CPU.STY(a)`. -/
def STY (ad : Nat) (s : CPUState) : Except EmuErr CPUState := do
  let m ← s.mmu.write ad (s.r.y : Int)
  .ok { s with mmu := m }

/-- The register operands of `CPU.T`: a, x, y or s. -/
inductive TReg where
  | a | x | y | s
deriving Repr, DecidableEq

/-- Dynamic register read (`getattr(self.r, name)`) for `CPU.T`. -/
def getTReg (rg : Registers) : TReg → Nat
  | .a => rg.a
  | .x => rg.x
  | .y => rg.y
  | .s => rg.s

/-- Dynamic register write (`setattr(self.r, name, v)`) for `CPU.T`. -/
def setTReg (rg : Registers) (t : TReg) (v : Nat) : Registers :=
  match t with
  | .a => { rg with a := v }
  | .x => { rg with x := v }
  | .y => { rg with y := v }
  | .s => { rg with s := v }

/-- `CPU.T((src, dst))`: transfer; Z/N updated unless the destination is
the stack pointer. -/
def T (src dst : TReg) (s : CPUState) : CPUState :=
  let rg := setTReg s.r dst (getTReg s.r src)
  if dst ≠ TReg.s then { s with r := rg.ZN (getTReg rg dst) }
  else { s with r := rg }

/-- The fixed operand bound into a dispatch entry when the table's `target`
field is non-None: the dummy `1`, the accumulator tag `"a"`, a flag name
(CL/SE), a `(flag, bool)` branch pair (B), a `(PH/PL, reg)` pair (P) or a
`(src, dst)` pair (T). -/
inductive Target where
  | one
  | regA
  | flag (f : CpuFlag)
  | br (f : CpuFlag) (b : Bool)
  | stk (push : Bool) (r : PReg)
  | mov (src dst : TReg)
deriving Repr, DecidableEq

/-- One 4-tuple of an `_ops` row: addressing-mode (or sub-)name, base cycle
cost, opcode bytes, optional fixed target. -/
structure Variant where
  mode : String
  cc : Nat
  opcodes : List Nat
  target : Option Target
deriving Repr, DecidableEq

/-- The mnemonics of the `_ops` table. -/
inductive OpName where
  | ADC | AND | ASL | B | BIT | BRK | CMP | CPX | CPY | DEC | DEX | DEY
  | EOR | CL | SE | INC | INX | INY | JMP | JSR | LDA | LDX | LDY | LSR
  | NOP | ORA | P | T | ROL | ROR | RTI | RTS | SBC | STA | STX | STY
deriving Repr, DecidableEq

/-- The full `CPU._ops` table (emu.py:247-478): mnemonic, operand class
(`'v'` value / `'a'` address), and the list of addressing variants. -/
def opsTable : List (OpName × Char × List Variant) := [
  (.ADC, 'v', [⟨"im", 2, [0x69], none⟩, ⟨"z", 3, [0x65], none⟩,
    ⟨"zx", 4, [0x75], none⟩, ⟨"a", 4, [0x6d], none⟩, ⟨"ax", 4, [0x7d], none⟩,
    ⟨"ay", 4, [0x79], none⟩, ⟨"ix", 6, [0x61], none⟩, ⟨"iy", 5, [0x71], none⟩]),
  (.AND, 'v', [⟨"im", 2, [0x29], none⟩, ⟨"z", 3, [0x25], none⟩,
    ⟨"zx", 4, [0x35], none⟩, ⟨"a", 4, [0x2d], none⟩, ⟨"ax", 4, [0x3d], none⟩,
    ⟨"ay", 4, [0x39], none⟩, ⟨"ix", 6, [0x21], none⟩, ⟨"iy", 5, [0x31], none⟩]),
  (.ASL, 'a', [⟨"im", 2, [0x0a], some .regA⟩, ⟨"z", 5, [0x06], none⟩,
    ⟨"zx", 6, [0x16], none⟩, ⟨"a", 6, [0x0e], none⟩, ⟨"ax", 7, [0x1e], none⟩]),
  (.B, 'v', [⟨"PL", 2, [0x10], some (.br .N false)⟩,
    ⟨"MI", 2, [0x30], some (.br .N true)⟩,
    ⟨"VC", 2, [0x50], some (.br .V false)⟩,
    ⟨"VC", 2, [0x70], some (.br .V true)⟩,
    ⟨"CC", 2, [0x90], some (.br .C false)⟩,
    ⟨"CS", 2, [0xb0], some (.br .C true)⟩,
    ⟨"NE", 2, [0xd0], some (.br .Z false)⟩,
    ⟨"EQ", 2, [0xf0], some (.br .Z true)⟩]),
  (.BIT, 'v', [⟨"z", 3, [0x24], none⟩, ⟨"a", 4, [0x2c], none⟩]),
  (.BRK, 'v', [⟨"im", 7, [0x00], some .one⟩]),
  (.CMP, 'v', [⟨"im", 2, [0xc9], none⟩, ⟨"z", 3, [0xc5], none⟩,
    ⟨"zx", 4, [0xd5], none⟩, ⟨"a", 4, [0xcd], none⟩, ⟨"ax", 4, [0xdd], none⟩,
    ⟨"ay", 4, [0xd9], none⟩, ⟨"ix", 6, [0xc1], none⟩, ⟨"iy", 5, [0xd1], none⟩]),
  (.CPX, 'v', [⟨"im", 2, [0xe0], none⟩, ⟨"z", 3, [0xe4], none⟩,
    ⟨"a", 4, [0xec], none⟩]),
  (.CPY, 'v', [⟨"im", 2, [0xc0], none⟩, ⟨"z", 3, [0xc4], none⟩,
    ⟨"a", 4, [0xcc], none⟩]),
  (.DEC, 'a', [⟨"z", 5, [0xc6], none⟩, ⟨"zx", 6, [0xd6], none⟩,
    ⟨"a", 6, [0xce], none⟩, ⟨"ax", 7, [0xde], none⟩]),
  (.DEX, 'a', [⟨"im", 2, [0xca], some .one⟩]),
  (.DEY, 'a', [⟨"im", 2, [0x88], some .one⟩]),
  (.EOR, 'v', [⟨"im", 2, [0x49], none⟩, ⟨"z", 3, [0x45], none⟩,
    ⟨"zx", 4, [0x55], none⟩, ⟨"a", 4, [0x4d], none⟩, ⟨"ax", 4, [0x5d], none⟩,
    ⟨"ay", 4, [0x59], none⟩, ⟨"ix", 6, [0x41], none⟩, ⟨"iy", 5, [0x51], none⟩]),
  (.CL, 'v', [⟨"C", 2, [0x18], some (.flag .C)⟩,
    ⟨"I", 2, [0x58], some (.flag .I)⟩,
    ⟨"V", 2, [0xb8], some (.flag .V)⟩,
    ⟨"D", 2, [0xd8], some (.flag .D)⟩]),
  (.SE, 'v', [⟨"C", 2, [0x38], some (.flag .C)⟩,
    ⟨"I", 2, [0x78], some (.flag .I)⟩,
    ⟨"D", 2, [0xf8], some (.flag .D)⟩]),
  (.INC, 'a', [⟨"z", 5, [0xe6], none⟩, ⟨"zx", 6, [0xf6], none⟩,
    ⟨"a", 6, [0xee], none⟩, ⟨"ax", 7, [0xfe], none⟩]),
  (.INX, 'a', [⟨"im", 2, [0xe8], some .one⟩]),
  (.INY, 'a', [⟨"im", 2, [0xc8], some .one⟩]),
  (.JMP, 'a', [⟨"a", 3, [0x4c], none⟩, ⟨"i", 5, [0x6c], none⟩]),
  (.JSR, 'a', [⟨"a", 6, [0x20], none⟩]),
  (.LDA, 'v', [⟨"im", 2, [0xa9], none⟩, ⟨"z", 3, [0xa5], none⟩,
    ⟨"zx", 4, [0xb5], none⟩, ⟨"a", 4, [0xad], none⟩, ⟨"ax", 4, [0xbd], none⟩,
    ⟨"ay", 4, [0xb9], none⟩, ⟨"ix", 6, [0xa1], none⟩, ⟨"iy", 5, [0xb1], none⟩]),
  (.LDX, 'v', [⟨"im", 2, [0xa2], none⟩, ⟨"z", 3, [0xa6], none⟩,
    ⟨"zy", 4, [0xb6], none⟩, ⟨"a", 4, [0xae], none⟩, ⟨"ay", 4, [0xbe], none⟩]),
  (.LDY, 'v', [⟨"im", 2, [0xa0], none⟩, ⟨"z", 3, [0xa4], none⟩,
    ⟨"zx", 4, [0xb4], none⟩, ⟨"a", 4, [0xac], none⟩, ⟨"ax", 4, [0xbc], none⟩]),
  (.LSR, 'a', [⟨"im", 2, [0x4a], some .regA⟩, ⟨"z", 5, [0x46], none⟩,
    ⟨"zx", 6, [0x56], none⟩, ⟨"a", 6, [0x4e], none⟩, ⟨"ax", 7, [0x5e], none⟩]),
  (.NOP, 'v', [⟨"ip", 2, [0x1a, 0x3a, 0x5a, 0x7a, 0xda, 0xea, 0xfa], some .one⟩,
    ⟨"im", 2, [0x80, 0x82, 0x89, 0xc2, 0xe2], none⟩,
    ⟨"z", 3, [0x04, 0x44, 0x64], none⟩,
    ⟨"zx", 4, [0x14, 0x34, 0x54, 0x74, 0xd4, 0xf4], none⟩,
    ⟨"a", 4, [0x0c], none⟩,
    ⟨"ax", 4, [0x1c, 0x3c, 0x5c, 0x7c, 0xdc, 0xfc], none⟩]),
  (.ORA, 'v', [⟨"im", 2, [0x09], none⟩, ⟨"z", 3, [0x05], none⟩,
    ⟨"zx", 4, [0x15], none⟩, ⟨"a", 4, [0x0d], none⟩, ⟨"ax", 4, [0x1d], none⟩,
    ⟨"ay", 4, [0x19], none⟩, ⟨"ix", 6, [0x01], none⟩, ⟨"iy", 5, [0x11], none⟩]),
  (.P, 'a', [⟨"PHA", 3, [0x48], some (.stk true .a)⟩,
    ⟨"PLA", 4, [0x68], some (.stk false .a)⟩,
    ⟨"PHP", 3, [0x08], some (.stk true .p)⟩,
    ⟨"PLP", 4, [0x28], some (.stk false .p)⟩]),
  (.T, 'a', [⟨"AX", 2, [0xaa], some (.mov .a .x)⟩,
    ⟨"XA", 2, [0x8a], some (.mov .x .a)⟩,
    ⟨"AY", 2, [0xa8], some (.mov .a .y)⟩,
    ⟨"YA", 2, [0x98], some (.mov .y .a)⟩,
    ⟨"XS", 2, [0x9a], some (.mov .x .s)⟩,
    ⟨"SX", 2, [0xba], some (.mov .s .x)⟩]),
  (.ROL, 'a', [⟨"im", 2, [0x2a], some .regA⟩, ⟨"z", 5, [0x26], none⟩,
    ⟨"zx", 6, [0x36], none⟩, ⟨"a", 6, [0x2e], none⟩, ⟨"ax", 7, [0x3e], none⟩]),
  (.ROR, 'a', [⟨"im", 2, [0x6a], some .regA⟩, ⟨"z", 5, [0x66], none⟩,
    ⟨"zx", 6, [0x76], none⟩, ⟨"a", 6, [0x6e], none⟩, ⟨"ax", 7, [0x7e], none⟩]),
  (.RTI, 'a', [⟨"im", 6, [0x40], some .one⟩]),
  (.RTS, 'a', [⟨"im", 6, [0x60], some .one⟩]),
  (.SBC, 'v', [⟨"im", 2, [0xe9, 0xeb], none⟩, ⟨"z", 3, [0xe5], none⟩,
    ⟨"zx", 4, [0xf5], none⟩, ⟨"a", 4, [0xed], none⟩, ⟨"ax", 4, [0xfd], none⟩,
    ⟨"ay", 4, [0xf9], none⟩, ⟨"ix", 6, [0xe1], none⟩, ⟨"iy", 5, [0xf1], none⟩]),
  (.STA, 'a', [⟨"z", 3, [0x85], none⟩, ⟨"zx", 4, [0x95], none⟩,
    ⟨"a", 4, [0x8d], none⟩, ⟨"ax", 5, [0x9d], none⟩, ⟨"ay", 5, [0x99], none⟩,
    ⟨"ix", 6, [0x81], none⟩, ⟨"iy", 6, [0x91], none⟩]),
  (.STX, 'a', [⟨"z", 3, [0x86], none⟩, ⟨"zy", 4, [0x96], none⟩,
    ⟨"a", 4, [0x8e], none⟩]),
  (.STY, 'a', [⟨"z", 3, [0x84], none⟩, ⟨"zx", 4, [0x94], none⟩,
    ⟨"a", 4, [0x8c], none⟩])]

/-- Search the `_ops` table for the entry owning an opcode byte.  This is
the lookup the 256-slot array built by `CPU._create_ops` provides (the
table registers no opcode twice, so first match is the only match);
`none` is an empty dispatch slot. -/
def findVariant (o : Nat) :
    List (OpName × Char × List Variant) → Option (OpName × Char × Variant)
  | [] => none
  | (op, t, vs) :: rest =>
    match vs.find? (fun vr => vr.opcodes.contains o) with
    | some vr => some (op, t, vr)
    | none => findVariant o rest

/-- The dispatch lookup `self.ops[opcode]`. -/
def opsLookup (o : Nat) : Option (OpName × Char × Variant) :=
  findVariant o opsTable

/-- Value-producing addressing dispatch (`getattr(self, a)` for a
value-class operation without a fixed target). -/
def valueOf (mode : String) (s : CPUState) : Except EmuErr (Nat × CPUState) :=
  if mode = "im" then im s
  else if mode = "z" then z s
  else if mode = "zx" then zx s
  else if mode = "zy" then zy s
  else if mode = "a" then CPU.a s
  else if mode = "ax" then ax s
  else if mode = "ay" then ay s
  else if mode = "ix" then ix s
  else if mode = "iy" then iy s
  else if mode = "i" then CPU.i s
  else .error .DispatchTypeError

/-- Address-producing addressing dispatch (`getattr(self, "%s_a" % a)` for
an address-class operation without a fixed target). -/
def addrOf (mode : String) (s : CPUState) : Except EmuErr (Nat × CPUState) :=
  if mode = "z" then z_a s
  else if mode = "zx" then zx_a s
  else if mode = "zy" then zy_a s
  else if mode = "a" then a_a s
  else if mode = "ax" then ax_a s
  else if mode = "ay" then ay_a s
  else if mode = "i" then i_a s
  else if mode = "ix" then ix_a s
  else if mode = "iy" then iy_a s
  else .error .DispatchTypeError

/-- Apply a value-class operation to its fetched operand. -/
def applyOpV (op : OpName) (v : Nat) (s : CPUState) : Except EmuErr CPUState :=
  match op with
  | .ADC => .ok (ADC v s)
  | .AND => .ok (AND v s)
  | .BIT => .ok (BIT v s)
  | .CMP => .ok (CMP v s)
  | .CPX => .ok (CPX v s)
  | .CPY => .ok (CPY v s)
  | .EOR => .ok (EOR v s)
  | .LDA => .ok (LDA v s)
  | .LDX => .ok (LDX v s)
  | .LDY => .ok (LDY v s)
  | .NOP => .ok (NOP s)
  | .ORA => .ok (ORA v s)
  | .SBC => .ok (SBC v s)
  | _ => .error .DispatchTypeError

/-- Apply an address-class operation to its resolved address. -/
def applyOpA (op : OpName) (ad : Nat) (s : CPUState) : Except EmuErr CPUState :=
  match op with
  | .ASL => ASL_mem ad s
  | .DEC => DEC ad s
  | .INC => INC ad s
  | .JMP => .ok (JMP ad s)
  | .JSR => JSR ad s
  | .LSR => LSR_mem ad s
  | .ROL => ROL_mem ad s
  | .ROR => ROR_mem ad s
  | .STA => STA ad s
  | .STX => STX ad s
  | .STY => STY ad s
  | _ => .error .DispatchTypeError

/-- Apply an operation bound to a fixed target (`functools.partial(f_target,
target)` in `_create_ops`). -/
def applyOpT (op : OpName) (t : Target) (s : CPUState) : Except EmuErr CPUState :=
  match op, t with
  | .ASL, .regA => .ok (ASL_acc s)
  | .LSR, .regA => .ok (LSR_acc s)
  | .ROL, .regA => .ok (ROL_acc s)
  | .ROR, .regA => .ok (ROR_acc s)
  | .B, .br f b => B f b s
  | .BRK, .one => BRK s
  | .DEX, .one => .ok (DEX s)
  | .DEY, .one => .ok (DEY s)
  | .INX, .one => .ok (INX s)
  | .INY, .one => .ok (INY s)
  | .NOP, .one => .ok (NOP s)
  | .RTI, .one => RTI s
  | .RTS, .one => RTS s
  | .CL, .flag f => .ok (CL f s)
  | .SE, .flag f => .ok (SE f s)
  | .P, .stk ph rn => if ph then P_push rn s else P_pull rn s
  | .T, .mov src dst => .ok (T src dst s)
  | _, _ => .error .DispatchTypeError

/-- The bound closure `f` of `_create_ops`: resolve the operand (possibly
touching memory and the cycle counter), run the operation, then add the
variant's base cycle cost. -/
def execEntry (op : OpName) (atype : Char) (vr : Variant) (s : CPUState) :
    Except EmuErr CPUState := do
  let s2 ←
    match vr.target with
    | some t => applyOpT op t s
    | none =>
      if atype = 'v' then do
        let (v, s1) ← valueOf vr.mode s
        applyOpV op v s1
      else do
        let (ad, s1) ← addrOf vr.mode s
        applyOpA op ad s1
  .ok { s2 with cc := s2.cc + vr.cc }

/-- Result of `CPU.step`.  `unmapped s` is the Python behavior of calling
the `None` in an empty dispatch slot (the spec's UnimplementedOpcodeError):
the exception escapes with the opcode fetch already performed, and `s` is
that already-mutated state.  `fault e` is an error raised while executing a
mapped instruction. -/
inductive StepResult where
  | ok (s : CPUState)
  | unmapped (s : CPUState)
  | fault (e : EmuErr)
deriving Repr, DecidableEq

/-- `CPU.step` (emu.py:97-100): reset `cc`, fetch the opcode byte
(advancing `pc`), look up the dispatch slot and run it. -/
def step (s : CPUState) : StepResult :=
  let s0 := { s with cc := 0 }
  match nextByte s0 with
  | .error e => .fault e
  | .ok (opcode, s1) =>
    match opsLookup opcode with
    | none => .unmapped s1
    | some (op, atype, vr) =>
      match execEntry op atype vr s1 with
      | .ok s2 => .ok s2
      | .error e => .fault e

end CPU

theorem mmu_smoke1 :
    ((MMU.mk []).addBlock 0 0x10 false none 0).isOk = true := by decide

theorem mmu_smoke2 :
    (((MMU.mk []).addBlock 0 0x10 false (some [1, 2, 3]) 0).bind
      (fun m => m.read 2)) = .ok 3 := by decide

/-! ## Helper lemmas about the status flags -/

theorem flagBit_eq (f : CpuFlag) : flagBit f = 2 ^ flagIdx f := by
  cases f <;> rfl

theorem flagIdx_inj (f g : CpuFlag) : flagIdx f = flagIdx g ↔ f = g := by
  cases f <;> cases g <;> decide

theorem testBit_flagMask (f g : CpuFlag) :
    (255 - flagBit g).testBit (flagIdx f) = decide (f ≠ g) := by
  cases f <;> cases g <;> decide

theorem and_flagBit_ne (q : Nat) (f : CpuFlag) :
    (q &&& flagBit f != 0) = q.testBit (flagIdx f) := by
  rw [flagBit_eq, Nat.and_two_pow]
  cases h : q.testBit (flagIdx f) <;> simp [h, Nat.pos_iff_ne_zero]

theorem getFlag_eq_testBit (r : Registers) (f : CpuFlag) :
    r.getFlag f = r.p.testBit (flagIdx f) :=
  and_flagBit_ne r.p f

theorem getFlag_setFlag (r : Registers) (f g : CpuFlag) (v : Bool) :
    (r.setFlag g v).getFlag f = if f = g then v else r.getFlag f := by
  cases v with
  | true =>
    show Registers.getFlag { r with p := r.p ||| flagBit g } f = _
    simp only [getFlag_eq_testBit]
    rw [Nat.testBit_or, flagBit_eq g, Nat.testBit_two_pow]
    by_cases h : f = g
    · subst h; simp
    · have hne : flagIdx g ≠ flagIdx f := fun he => h ((flagIdx_inj g f).1 he).symm
      simp [h, hne]
  | false =>
    show Registers.getFlag (r.clearFlag g) f = _
    unfold Registers.clearFlag
    simp only [getFlag_eq_testBit]
    rw [Nat.testBit_and, testBit_flagMask f g]
    by_cases h : f = g <;> simp [h]

theorem getFlag_setFlag_self (r : Registers) (f : CpuFlag) (v : Bool) :
    (r.setFlag f v).getFlag f = v := by
  simp [getFlag_setFlag]

theorem getFlag_setFlag_ne (r : Registers) (f g : CpuFlag) (v : Bool)
    (h : f ≠ g) : (r.setFlag g v).getFlag f = r.getFlag f := by
  simp [getFlag_setFlag, h]

theorem setFlag_a (r : Registers) (f : CpuFlag) (v : Bool) :
    (r.setFlag f v).a = r.a := by
  cases v <;> rfl

theorem setFlag_x (r : Registers) (f : CpuFlag) (v : Bool) :
    (r.setFlag f v).x = r.x := by
  cases v <;> rfl

theorem setFlag_y (r : Registers) (f : CpuFlag) (v : Bool) :
    (r.setFlag f v).y = r.y := by
  cases v <;> rfl

theorem setFlag_s (r : Registers) (f : CpuFlag) (v : Bool) :
    (r.setFlag f v).s = r.s := by
  cases v <;> rfl

theorem setFlag_pc (r : Registers) (f : CpuFlag) (v : Bool) :
    (r.setFlag f v).pc = r.pc := by
  cases v <;> rfl

theorem ZN_a (r : Registers) (v : Nat) : (r.ZN v).a = r.a := by
  unfold Registers.ZN; rw [setFlag_a, setFlag_a]

theorem getFlag_ZN (r : Registers) (v : Nat) (f : CpuFlag)
    (hZ : f ≠ .Z) (hN : f ≠ .N) : (r.ZN v).getFlag f = r.getFlag f := by
  unfold Registers.ZN
  rw [getFlag_setFlag_ne _ _ _ _ hN, getFlag_setFlag_ne _ _ _ _ hZ]

/-! ## Helper lemmas about the MMU -/

@[simp]
theorem exBind_ok {ε α β : Type} (v : α) (f : α → Except ε β) :
    (Except.ok v >>= f) = f v := rfl

@[simp]
theorem exBind_error {ε α β : Type} (e : ε) (f : α → Except ε β) :
    ((Except.error e : Except ε α) >>= f) = Except.error e := rfl

theorem writeBlocks_cons_miss (b : Block) (rest : List Block)
    (addr value : Int) (c : ¬(b.start ≤ addr ∧ addr < b.start + b.length)) :
    MMU.writeBlocks (b :: rest) addr value =
      MMU.writeBlocks rest addr value >>= (fun bs2 => .ok (b :: bs2)) := by
  simp only [MMU.writeBlocks, if_neg c]

theorem read_cons_miss (b : Block) (rest : List Block) (addr : Int)
    (c : ¬(b.start ≤ addr ∧ addr < b.start + b.length)) :
    MMU.read ⟨b :: rest⟩ addr = MMU.read ⟨rest⟩ addr := by
  unfold MMU.read
  simp only [MMU.getBlock, if_neg c]

theorem writeBlocks_read (bs : List Block) (addr value : Int)
    (bs' : List Block) (h : MMU.writeBlocks bs addr value = .ok bs') :
    MMU.read ⟨bs'⟩ addr = .ok (band8 value) := by
  induction bs generalizing bs' with
  | nil => simp [MMU.writeBlocks] at h
  | cons b rest ih =>
    by_cases c : b.start ≤ addr ∧ addr < b.start + b.length
    · simp only [MMU.writeBlocks, if_pos c] at h
      by_cases ro : b.readonly
      · rw [if_pos ro] at h; exact absurd h (by simp)
      · rw [if_neg ro] at h
        by_cases hidx : (addr - b.start).toNat < b.memory.length
        · rw [if_pos hidx] at h
          have hbs := Except.ok.inj h
          subst hbs
          unfold MMU.read
          simp only [MMU.getBlock, if_pos c, exBind_ok]
          rw [List.get?_eq_getElem?]
          show (match (b.memory.set (addr - b.start).toNat
            (band8 value))[(addr - b.start).toNat]? with
            | some v => Except.ok v
            | none => Except.error EmuErr.AddressOutOfRange) = _
          rw [List.getElem?_set_eq_of_lt _ hidx]
        · rw [if_neg hidx] at h; exact absurd h (by simp)
    · rw [writeBlocks_cons_miss _ _ _ _ c] at h
      cases hrec : MMU.writeBlocks rest addr value with
      | error e => rw [hrec] at h; exact absurd h (by simp)
      | ok bs2 =>
        rw [hrec] at h
        simp only [exBind_ok] at h
        have hbs := Except.ok.inj h
        subst hbs
        rw [read_cons_miss _ _ _ c]
        exact ih bs2 hrec

theorem writeBlocks_spec (bs : List Block) (addr value : Int) (b : Block)
    (h : MMU.getBlock bs addr = .ok b) :
    (b.readonly = true → MMU.writeBlocks bs addr value = .error .ReadOnlyError) ∧
    (b.readonly = false → (addr - b.start).toNat < b.memory.length →
      ∃ bs', MMU.writeBlocks bs addr value = .ok bs' ∧
        MMU.getBlock bs' addr =
          .ok { b with memory := b.memory.set (addr - b.start).toNat (band8 value) }) := by
  induction bs with
  | nil => simp [MMU.getBlock] at h
  | cons hd rest ih =>
    by_cases c : hd.start ≤ addr ∧ addr < hd.start + hd.length
    · simp only [MMU.getBlock, if_pos c] at h
      have hb := Except.ok.inj h
      subst hb
      constructor
      · intro ro
        simp only [MMU.writeBlocks, if_pos c, if_pos ro]
      · intro ro hidx
        refine ⟨({ hd with memory := hd.memory.set (addr - hd.start).toNat (band8 value) }) :: rest, ?_, ?_⟩
        · simp [MMU.writeBlocks, c, c.1, c.2, ro, hidx]
        · simp only [MMU.getBlock, if_pos c]
    · simp only [MMU.getBlock, if_neg c] at h
      have hih := ih h
      constructor
      · intro ro
        rw [writeBlocks_cons_miss _ _ _ _ c, hih.1 ro]
        rfl
      · intro ro hidx
        obtain ⟨bs', hw, hg⟩ := hih.2 ro hidx
        refine ⟨hd :: bs', ?_, ?_⟩
        · rw [writeBlocks_cons_miss _ _ _ _ c, hw]; rfl
        · simpa only [MMU.getBlock, if_neg c] using hg

/-! ## C10: `Registers.clearFlags` -/

/-- C10: `Registers.clearFlags()` sets the packed status byte `p` to
exactly 0; afterwards every named flag reads as false, and the
conventionally always-set unused bit `0x20` is also cleared. -/
theorem clearFlags_zero (r : Registers) :
    r.clearFlags.p = 0 ∧ (∀ f : CpuFlag, r.clearFlags.getFlag f = false) ∧
    r.clearFlags.p &&& 0x20 = 0 :=
  ⟨rfl, fun f => by rw [getFlag_eq_testBit]; exact Nat.zero_testBit _,
    Nat.zero_and 0x20⟩

/-! ## C2: `MMU.addBlock` overlap rejection -/

/-- Claim-side definition, following the spec's words: the half-open ranges
`[s1, s1+l1)` and `[s2, s2+l2)` have a common address. -/
def rangesIntersect (s1 l1 s2 l2 : Int) : Bool :=
  max s1 s2 < min (s1 + l1) (s2 + l2)

/-- C2 counterexample: registering the *same* block `(0x00, 0x10)` twice is
accepted by `addBlock`, although the two half-open ranges certainly
intersect — so "fails exactly when the ranges intersect" is false. -/
theorem addBlock_duplicate_accepted :
    (((MMU.mk []).addBlock 0x00 0x10 false none 0).bind
      (fun m => m.addBlock 0x00 0x10 false none 0)).isOk = true ∧
    rangesIntersect 0x00 0x10 0x00 0x10 = true := by decide

/-- C2 (amended): `addBlock(start, length, ...)` (with no initial value)
fails with the overlap error exactly when some existing block `b` satisfies
the source's strict boundary test
`(start+length > b.start ∧ start+length < b.start+b.length) ∨
 (b.start+b.length > start ∧ b.start+b.length < start+length)`;
in particular `(0x00,0x10)` then `(0x08,0x10)` fails and `(0x00,0x10)` then
the adjacent `(0x10,0x10)` succeeds (but e.g. an exact duplicate of an
existing block is accepted even though the ranges intersect). -/
theorem addBlock_overlap_iff :
    (∀ (m : MMU) (start length : Int) (ro : Bool),
      (m.addBlock start length ro none 0 = .error .MemoryRangeError ↔
        ∃ b ∈ m.blocks, MMU.overlapB start length b = true)) ∧
    (((MMU.mk []).addBlock 0x00 0x10 false none 0).bind
      (fun m => m.addBlock 0x08 0x10 false none 0)) = .error .MemoryRangeError ∧
    (((MMU.mk []).addBlock 0x00 0x10 false none 0).bind
      (fun m => m.addBlock 0x10 0x10 false none 0)).isOk = true := by
  refine ⟨fun m start length ro => ?_, by decide, by decide⟩
  unfold MMU.addBlock
  by_cases h : m.blocks.any (MMU.overlapB start length)
  · simp [h, List.any_eq_true]
    exact (List.any_eq_true.1 h).imp (fun b hb => ⟨hb.1, hb.2⟩)
  · simp [h]
    intro b hb
    by_contra hover
    exact h (List.any_eq_true.2 ⟨b, hb, by simpa using hover⟩)

/-! ## C8: `MMU.write` read-only enforcement and store semantics -/

/-- C8: for an address claimed (by `getBlock`'s linear scan) by a read-only
block, `write` fails with the read-only error — and, the model being
functional, returns no modified MMU, so every read of `m` is unchanged
(matching the source, where the `raise` precedes any mutation); for an
address claimed by a writable block, `write` stores `value & 0xff` at
offset `addr - block.start` of that block's backing bytes, and reading the
address back yields that byte. -/
theorem mmu_write_semantics (m : MMU) (addr value : Int) (b : Block)
    (h : MMU.getBlock m.blocks addr = .ok b) :
    (b.readonly = true → m.write addr value = .error .ReadOnlyError) ∧
    (b.readonly = false → (addr - b.start).toNat < b.memory.length →
      ∃ m', m.write addr value = .ok m' ∧
        MMU.getBlock m'.blocks addr =
          .ok { b with memory := b.memory.set (addr - b.start).toNat (band8 value) } ∧
        m'.read addr = .ok (band8 value)) := by
  have hs := writeBlocks_spec m.blocks addr value b h
  constructor
  · intro ro
    simp [MMU.write, hs.1 ro, Except.bind]
  · intro ro hidx
    obtain ⟨bs', hw, hg⟩ := hs.2 ro hidx
    exact ⟨⟨bs'⟩, by simp [MMU.write, hw, Except.bind], hg,
      writeBlocks_read m.blocks addr value bs' hw⟩

def c8M : MMU :=
  ⟨[⟨0x00, 0x10, true, 0xAA :: List.replicate 15 0⟩,
    ⟨0x100, 0x10, false, List.replicate 16 0⟩]⟩

/-- C8 witness: on `c8M`, writing to the read-only address `0x00` fails
with the read-only error while `0x00` still reads back its original `0xAA`;
writing `0x1FF` to the writable address `0x100` stores `0x1FF & 0xff =
0xFF` and reads back `0xFF`. -/
theorem mmu_write_semantics_witness :
    c8M.write 0x00 0x55 = .error .ReadOnlyError ∧
    c8M.read 0x00 = .ok 0xAA ∧
    ∃ m', c8M.write 0x100 0x1FF = .ok m' ∧ m'.read 0x100 = .ok 0xFF := by
  have h1 := mmu_write_semantics c8M 0x00 0x55
    ⟨0x00, 0x10, true, 0xAA :: List.replicate 15 0⟩ (by decide)
  have h2 := mmu_write_semantics c8M 0x100 0x1FF
    ⟨0x100, 0x10, false, List.replicate 16 0⟩ (by decide)
  obtain ⟨m', hw, hg, hr⟩ := h2.2 rfl (by decide)
  exact ⟨h1.1 rfl, by decide, m', hw, by simpa using hr⟩

/-! ## C9: stack push/pop addressing and wraparound -/

def c9M : MMU := ⟨[⟨0x100, 0x100, false, List.replicate 0x100 0⟩]⟩

def c9S0 : CPUState := ⟨⟨0, 0, 0, 0x00, 0, 0x24⟩, c9M, 0, 1, 0xee⟩

def c9S0' : CPUState :=
  ⟨⟨0, 0, 0, 0xFF, 0, 0x24⟩,
    ⟨[⟨0x100, 0x100, false, 0x7B :: List.replicate 0xFF 0⟩]⟩, 0, 1, 0xee⟩

def c9M2 : MMU := ⟨[⟨0x100, 0x100, false, 0x42 :: List.replicate 0xFF 0⟩]⟩

def c9S1 : CPUState := ⟨⟨0, 0, 0, 0xFF, 0, 0x24⟩, c9M2, 0, 1, 0xee⟩

def c9S1' : CPUState := { c9S1 with r := { c9S1.r with s := 0x00 } }

/-- C9: a stack push writes its value (masked to a byte by the MMU) to
address `stack_page*0x100 + s` and then decrements `s` modulo 256; a stack
pop increments `s` modulo 256 and then reads from `stack_page*0x100 + s`
(with the new `s`).  Both wrap silently. -/
theorem stack_push_pop_wrap :
    (∀ (st : CPUState) (v : Int) (st' : CPUState),
        CPU.stackPush st v = .ok st' →
        st'.r.s = (st.r.s + 255) % 256 ∧
        st'.mmu.read ((st.stack_page * 0x100 + st.r.s : Nat) : Int) = .ok (band8 v) ∧
        st'.r.pc = st.r.pc ∧ st'.cc = st.cc) ∧
    (∀ (st : CPUState) (v : Nat) (st' : CPUState),
        CPU.stackPop st = .ok (v, st') →
        st'.r.s = (st.r.s + 1) % 256 ∧ st'.mmu = st.mmu ∧
        st'.mmu.read ((st.stack_page * 0x100 + st'.r.s : Nat) : Int) = .ok v) := by
  constructor
  · intro st v st' h
    unfold CPU.stackPush at h
    cases hw : st.mmu.write ((st.stack_page * 0x100 + st.r.s : Nat) : Int) v with
    | error e => rw [hw] at h; exact absurd h (by simp [Except.bind])
    | ok m =>
      rw [hw] at h
      simp [Except.bind] at h
      subst h
      refine ⟨?_, ?_, rfl, rfl⟩
      · show band8 ((st.r.s : Int) - 1) = (st.r.s + 255) % 256
        unfold band8; omega
      · unfold MMU.write at hw
        cases hwb : MMU.writeBlocks st.mmu.blocks
            ((st.stack_page * 0x100 + st.r.s : Nat) : Int) v with
        | error e => rw [hwb] at hw; exact absurd hw (by simp [Except.bind])
        | ok bs' =>
          rw [hwb] at hw
          simp [Except.bind] at hw
          subst hw
          exact writeBlocks_read _ _ _ _ hwb
  · intro st v st' h
    unfold CPU.stackPop at h
    cases hr : st.mmu.read
        ((st.stack_page * 0x100 + band8 ((st.r.s : Int) + 1) : Nat) : Int) with
    | error e => rw [hr] at h; exact absurd h (by simp [Except.bind])
    | ok w =>
      rw [hr] at h
      simp [Except.bind] at h
      obtain ⟨hv, hst⟩ := h
      subst hst
      have hs : band8 ((st.r.s : Int) + 1) = (st.r.s + 1) % 256 := by
        unfold band8; omega
      refine ⟨hs, rfl, ?_⟩
      exact hv ▸ hr

/-! ## C1: `readWord` little-endian composition and the BRK vector -/

def brkM : MMU :=
  ⟨[⟨0x100, 0x100, false, List.replicate 0x100 0⟩,
    ⟨0xFFFE, 2, true, [0x34, 0x12]⟩]⟩

def brkS0 : CPUState := ⟨⟨0, 0, 0, 0xFF, 0x8001, 0b00100100⟩, brkM, 0, 1, 0xee⟩

def brkS1 : CPUState :=
  ⟨⟨0, 0, 0, 0xFC, 0x1234, 0b00110100⟩,
    ⟨[⟨0x100, 0x100, false,
        (((List.replicate 0x100 0).set 0xFF 0x80).set 0xFE 0x02).set 0xFD 0x34⟩,
      ⟨0xFFFE, 2, true, [0x34, 0x12]⟩]⟩, 0, 1, 0xee⟩

/-- C1: `read_word(addr)` (modelled from the spec; its definition is
missing from the source) performs two sequential byte reads and composes
them little-endian, and a `BRK` that completes leaves `pc` equal to the
little-endian word stored at the BRK vector address `0xFFFE` (read from the
machine's memory as it stands after BRK's stack pushes; BRK writes nothing
afterwards, so that is also the final memory). -/
theorem exBind_eq_ok {ε α β : Type} {x : Except ε α} {f : α → Except ε β}
    {b : β} (h : (x >>= f) = .ok b) : ∃ v, x = .ok v ∧ f v = .ok b := by
  cases x with
  | error e => simp at h
  | ok v => exact ⟨v, rfl, h⟩

theorem nextByte_ok_inv {s : CPUState} {v : Nat} {s1 : CPUState}
    (h : CPU.nextByte s = .ok (v, s1)) :
    s.mmu.read s.r.pc = .ok v ∧
    s1 = { s with r := { s.r with pc := s.r.pc + 1 } } := by
  unfold CPU.nextByte at h
  cases hr : s.mmu.read s.r.pc with
  | error e => rw [hr] at h; exact absurd h (by simp)
  | ok w =>
    rw [hr] at h
    have hp := Except.ok.inj h
    exact ⟨congrArg Except.ok (show w = v from congrArg Prod.fst hp),
      (show ({ s with r := { s.r with pc := s.r.pc + 1 } } : CPUState) = s1
        from congrArg Prod.snd hp).symm⟩

theorem readWord_brk_vector :
    (∀ (m : MMU) (addr : Int) (w : Nat), MMU.readWord m addr = .ok w →
      ∃ lo hi, m.read addr = .ok lo ∧ m.read (addr + 1) = .ok hi ∧
        w = (hi <<< 8) ||| lo) ∧
    (∀ (s s' : CPUState), CPU.BRK s = .ok s' →
      ∃ w, MMU.readWord s'.mmu 0xFFFE = .ok w ∧ s'.r.pc = (w : Int)) := by
  constructor
  · intro m addr w h
    unfold MMU.readWord at h
    obtain ⟨lo, h1, h⟩ := exBind_eq_ok h
    obtain ⟨hi, h2, h⟩ := exBind_eq_ok h
    exact ⟨lo, hi, h1, h2, (Except.ok.inj h).symm⟩
  · intro s s' h
    unfold CPU.BRK at h
    obtain ⟨sa, h1, h⟩ := exBind_eq_ok h
    obtain ⟨sb, h2, h⟩ := exBind_eq_ok h
    obtain ⟨w, h3, h⟩ := exBind_eq_ok h
    have hs := Except.ok.inj h
    subst hs
    exact ⟨w, h3, rfl⟩

/-- C1 witness: on a machine whose BRK vector holds `0x1234` little-endian
(`0x34` at `0xFFFE`, `0x12` at `0xFFFF`), BRK from `pc = 0x8001` pushes
`0x80, 0x02, 0x34` to the stack page and ends with `pc = 0x1234`. -/
theorem readWord_brk_vector_witness :
    CPU.BRK brkS0 = .ok brkS1 ∧
    MMU.readWord brkS1.mmu 0xFFFE = .ok 0x1234 ∧ brkS1.r.pc = 0x1234 := by
  have hb : CPU.BRK brkS0 = .ok brkS1 := by decide
  obtain ⟨w, h1, h2⟩ := readWord_brk_vector.2 brkS0 brkS1 hb
  have h3 : MMU.readWord brkS1.mmu 0xFFFE = .ok 0x1234 := by decide
  have hw : w = 0x1234 := by
    rw [h3] at h1; exact (Except.ok.inj h1).symm
  exact ⟨hb, h3, by rw [h2, hw]; rfl⟩

/-! ## C3: the pc register is not kept within 16 bits -/

def c3S0 : CPUState :=
  ⟨⟨0, 0, 0, 0xFF, 0xFFFF, 0b00100100⟩,
    ⟨[⟨0xFF00, 0x100, false, List.replicate 0x100 0⟩]⟩, 0, 1, 0xee⟩

def c3S1 : CPUState :=
  ⟨⟨0, 0, 0, 0xFF, 0, 0b00100100⟩,
    ⟨[⟨0, 0x10, false, 0x80 :: List.replicate 15 0⟩]⟩, 0, 1, 0xee⟩

/-- C3 (exhibiting the code bug): fetching a byte at `pc = 0xFFFF` leaves
`pc = 0x10000` (`nextByte` never masks the increment), and a taken branch
at `pc = 0` with displacement byte `0x80` (two's complement −128) leaves
`pc = −127`; in both cases `pc` leaves 0..0xFFFF instead of wrapping
modulo 65536 as the spec's invariant requires. -/
theorem pc_width_violation :
    ((CPU.nextByte c3S0).map (fun pr => pr.2.r.pc) = .ok 0x10000 ∧
      ¬ ((0x10000 : Int) ≤ 0xFFFF)) ∧
    ((CPU.B .C false c3S1).map (fun st => st.r.pc) = .ok (-127) ∧
      ((-127 : Int) < 0)) := by
  refine ⟨⟨by decide, by decide⟩, ⟨by decide, by decide⟩⟩

/-! ## C4: `step` on an unmapped opcode -/

def c4S0 : CPUState :=
  ⟨⟨0, 0, 0, 0xFF, 0, 0b00100100⟩,
    ⟨[⟨0, 0x10, false, 0x02 :: List.replicate 15 0⟩]⟩, 7, 1, 0xee⟩

def c4S1 : CPUState := { c4S0 with cc := 0, r := { c4S0.r with pc := 1 } }

/-- C4 counterexample: with the unmapped opcode byte `0x02` at `pc = 0`,
`step` fails — but `pc` has already advanced to 1, so the registers are
*not* all as they were before the step began. -/
theorem step_unmapped_pc_advances :
    CPU.step c4S0 = .unmapped c4S1 ∧ c4S1.r.pc = 1 ∧ c4S0.r.pc = 0 := by
  decide

/-- C4 (amended): when the fetched opcode byte has no dispatch entry,
`step` fails with the unimplemented-opcode error; the memory and the
registers `a`, `x`, `y`, `s`, `p` are unchanged and `cc` is 0 (reset at
step entry), but `pc` has advanced one past the fetched opcode byte. -/
theorem step_unmapped_partial :
    ∀ (s : CPUState) (opcode : Nat) (s1 : CPUState),
      CPU.nextByte { s with cc := 0 } = .ok (opcode, s1) →
      CPU.opsLookup opcode = none →
      CPU.step s = .unmapped s1 ∧ s1.mmu = s.mmu ∧ s1.r.a = s.r.a ∧
      s1.r.x = s.r.x ∧ s1.r.y = s.r.y ∧ s1.r.s = s.r.s ∧ s1.r.p = s.r.p ∧
      s1.r.pc = s.r.pc + 1 ∧ s1.cc = 0 := by
  intro s opcode s1 h hnone
  obtain ⟨hr, hs1⟩ := nextByte_ok_inv h
  subst hs1
  refine ⟨?_, rfl, rfl, rfl, rfl, rfl, rfl, rfl, rfl⟩
  simp only [CPU.step, h, hnone]

/-- C4 witness: the amended statement applied to the `0x02`-at-`pc=0`
machine: step fails, `pc` advanced by one, `cc` reset, memory unchanged. -/
theorem step_unmapped_partial_witness :
    CPU.step c4S0 = .unmapped c4S1 ∧ c4S1.r.pc = c4S0.r.pc + 1 ∧
    c4S1.cc = 0 ∧ c4S1.mmu = c4S0.mmu := by
  have h := step_unmapped_partial c4S0 0x02 c4S1 (by decide) (by decide)
  exact ⟨h.1, h.2.2.2.2.2.2.2.1, h.2.2.2.2.2.2.2.2, h.2.1⟩

/-! ## C5: decimal-mode ADC -/

def c5S0 : CPUState :=
  ⟨⟨0x50, 0, 0, 0xFF, 0, 0b00001000⟩, ⟨[]⟩, 0, 1, 0xee⟩

def c5S1 : CPUState :=
  ⟨⟨0x15, 0, 0, 0xFF, 0, 0b00001000⟩, ⟨[]⟩, 0, 1, 0xee⟩

/-- C5 counterexample: with D set, `a = 0x50`, operand `0x50`, carry-in 0,
the code leaves Overflow *clear*, while the binary-mode formula — evaluated
on the binary sum `0x50 + 0x50 + 0 = 0xA0` it would have used in binary
mode — produces a set bit: the decimal path feeds the formula the *decimal*
sum `50 + 50 = 100`, not the binary sum. -/
theorem adc_decimal_overflow_differs :
    (CPU.ADC 0x50 c5S0).r.getFlag .V = false ∧
    CPU.adcV 0x50 0x50 (0x50 + 0x50 + 0) = true := by decide

/-- C5 (amended): with the Decimal flag set, ADC stores in `a` the BCD
encoding of `(BCD(a) + BCD(operand) + carry) mod 100`, sets Carry iff the
decimal sum exceeds 99, and sets Overflow from the binary-mode formula
`(~(a ^ operand)) & (a ^ r) & 0x80` evaluated with the *decimal* sum
`r = BCD(a) + BCD(operand) + carry` in place of the binary sum; memory is
untouched. -/
theorem adc_decimal_behavior :
    ∀ (s : CPUState) (v2 : Nat), s.r.getFlag .D = true →
      (CPU.ADC v2 s).r.a =
        CPU.toBCD ((CPU.fromBCD s.r.a + CPU.fromBCD v2 +
          (if s.r.getFlag .C then 1 else 0)) % 100) ∧
      (CPU.ADC v2 s).r.getFlag .C =
        decide (CPU.fromBCD s.r.a + CPU.fromBCD v2 +
          (if s.r.getFlag .C then 1 else 0) > 99) ∧
      (CPU.ADC v2 s).r.getFlag .V =
        CPU.adcV s.r.a v2 (CPU.fromBCD s.r.a + CPU.fromBCD v2 +
          (if s.r.getFlag .C then 1 else 0)) ∧
      (CPU.ADC v2 s).mmu = s.mmu := by
  intro s v2 hD
  unfold CPU.ADC
  simp only [hD, if_true]
  refine ⟨?_, ?_, ?_, by trivial⟩
  · show ((((({ s.r with a := CPU.toBCD (_ % 100) }).setFlag .C _).ZN _).setFlag
      .V _)).a = _
    rw [setFlag_a, ZN_a, setFlag_a]
  · show ((((({ s.r with a := CPU.toBCD (_ % 100) }).setFlag .C _).ZN _).setFlag
      .V _)).getFlag .C = _
    rw [getFlag_setFlag_ne _ _ _ _ (by decide),
      getFlag_ZN _ _ _ (by decide) (by decide), getFlag_setFlag_self]
  · show ((((({ s.r with a := CPU.toBCD (_ % 100) }).setFlag .C _).ZN _).setFlag
      .V _)).getFlag .V = _
    rw [getFlag_setFlag_self]

/-- C5 witness: with D set, `a = 0x15`, operand `0x27`, carry-in 0 the
amended statement yields `a = 0x42` and Carry clear. -/
theorem adc_decimal_behavior_witness :
    (CPU.ADC 0x27 c5S1).r.a = 0x42 ∧
    (CPU.ADC 0x27 c5S1).r.getFlag .C = false := by
  have h := adc_decimal_behavior c5S1 0x27 (by decide)
  exact ⟨h.1.trans (by decide), h.2.1.trans (by decide)⟩

/-! ## C6: the divide-by-0xff page-crossing cycle penalty -/

def c6S0 : CPUState :=
  ⟨⟨0, 1, 0, 0xFF, 0, 0⟩,
    ⟨[⟨0, 0x10, false, 0xFE :: List.replicate 15 0⟩]⟩, 0, 1, 0xee⟩

def c6S1 : CPUState := { c6S0 with r := { c6S0.r with pc := 2 } }

/-- C6: the absolute,X / absolute,Y / indirect-indexed (Y) modes add
exactly one extra cycle iff `floor(base/0xff) ≠ floor((base+index)/0xff)`
— the literal divide-by-`0xff` test of the source, not a `>> 8` high-byte
comparison. -/
theorem page_cross_penalty :
    (∀ (s : CPUState) (o : Nat) (s1 : CPUState),
      CPU.nextWord s = .ok (o, s1) →
      CPU.ax_a s = .ok ((o + s1.r.x) &&& 0xffff,
        if o / 0xff = (o + s1.r.x) / 0xff then s1
        else { s1 with cc := s1.cc + 1 })) ∧
    (∀ (s : CPUState) (o : Nat) (s1 : CPUState),
      CPU.nextWord s = .ok (o, s1) →
      CPU.ay_a s = .ok ((o + s1.r.y) &&& 0xffff,
        if o / 0xff = (o + s1.r.y) / 0xff then s1
        else { s1 with cc := s1.cc + 1 })) ∧
    (∀ (s : CPUState) (ptr : Nat) (s1 : CPUState) (hi lo : Nat),
      CPU.nextByte s = .ok (ptr, s1) →
      s1.mmu.read (((ptr + 1) &&& 0xff : Nat)) = .ok hi →
      s1.mmu.read ptr = .ok lo →
      CPU.iy_a s = .ok ((((hi <<< 8) + lo) + s1.r.y) &&& 0xffff,
        if ((hi <<< 8) + lo) / 0xff = (((hi <<< 8) + lo) + s1.r.y) / 0xff then s1
        else { s1 with cc := s1.cc + 1 })) := by
  refine ⟨?_, ?_, ?_⟩
  · intro s o s1 h
    unfold CPU.ax_a
    rw [h]
    simp only [exBind_ok]
    by_cases hc : o / 0xff = (o + s1.r.x) / 0xff
    · rw [if_neg (by simpa using hc), if_pos hc]
    · rw [if_pos hc, if_neg hc]
  · intro s o s1 h
    unfold CPU.ay_a
    rw [h]
    simp only [exBind_ok]
    by_cases hc : o / 0xff = (o + s1.r.y) / 0xff
    · rw [if_neg (by simpa using hc), if_pos hc]
    · rw [if_pos hc, if_neg hc]
  · intro s ptr s1 hi lo h hhi hlo
    unfold CPU.iy_a
    rw [h]
    simp only [exBind_ok]
    rw [hhi]
    simp only [exBind_ok]
    rw [hlo]
    simp only [exBind_ok]
    by_cases hc : ((hi <<< 8) + lo) / 0xff = (((hi <<< 8) + lo) + s1.r.y) / 0xff
    · rw [if_neg (by simpa using hc), if_pos hc]
    · rw [if_pos hc, if_neg hc]

/-- C6 witness: base `0x00FE` with `x = 1` yields address `0x00FF` and an
extra cycle, although both addresses lie in the same 256-byte page
(`0xFE >>> 8 = 0xFF >>> 8 = 0`) — the spurious boundary at `0xFF`. -/
theorem page_cross_penalty_witness :
    CPU.ax_a c6S0 = .ok (0xFF, { c6S1 with cc := 1 }) ∧
    0xFE >>> 8 = 0xFF >>> 8 := by
  have h := page_cross_penalty.1 c6S0 0xFE c6S1 (by decide)
  exact ⟨h.trans (by decide), by decide⟩

/-! ## C7: indirect JMP page-wrap bug -/

def c7S0 : CPUState :=
  ⟨⟨0, 0, 0, 0xFF, 0, 0⟩,
    ⟨[⟨0, 0x10, false, 0xFF :: 0x30 :: List.replicate 14 0⟩,
      ⟨0x3000, 0x200, false,
        (((List.replicate 0x200 0).set 0 0x77).set 0xFF 0xAB).set 0x100 0x55⟩]⟩,
    0, 1, 0xee⟩

def c7S1 : CPUState := { c7S0 with r := { c7S0.r with pc := 2 } }

/-- C7: the indirect JMP mode reads its target with the 6502 page-wrap bug:
when the pointer's low byte is `0xff` the high byte comes from
`pointer - 0xff`, otherwise from `pointer + 1`; the low byte always comes
from the pointer itself. -/
theorem indirect_jmp_wrap :
    ∀ (s : CPUState) (ptr : Nat) (s1 : CPUState) (lo hi : Nat),
      CPU.nextWord s = .ok (ptr, s1) →
      s1.mmu.read ptr = .ok lo →
      ((ptr &&& 0xff = 0xff →
        s1.mmu.read ((ptr - 0xff : Nat)) = .ok hi →
        CPU.i_a s = .ok (((hi <<< 8) + lo) &&& 0xffff, s1)) ∧
       (ptr &&& 0xff ≠ 0xff →
        s1.mmu.read ((ptr + 1 : Nat)) = .ok hi →
        CPU.i_a s = .ok (((hi <<< 8) + lo) &&& 0xffff, s1))) := by
  intro s ptr s1 lo hi h hlo
  constructor
  · intro hwrap hhi
    unfold CPU.i_a
    rw [h]
    simp only [exBind_ok]
    rw [if_pos (by simpa using hwrap)]
    rw [hhi]
    simp only [exBind_ok]
    rw [hlo]
    simp only [exBind_ok]
  · intro hwrap hhi
    unfold CPU.i_a
    rw [h]
    simp only [exBind_ok]
    rw [if_neg (by simpa using hwrap)]
    rw [hhi]
    simp only [exBind_ok]
    rw [hlo]
    simp only [exBind_ok]

/-- C7 witness: pointer `0x30FF` takes its high byte from `0x3000` (which
holds `0x77`), not from `0x3100` (which holds `0x55`): the target is
`0x77AB`, not `0x55AB`. -/
theorem indirect_jmp_wrap_witness :
    CPU.i_a c7S0 = .ok (0x77AB, c7S1) ∧
    c7S1.mmu.read 0x3100 = .ok 0x55 ∧ (0x77 : Nat) ≠ 0x55 := by
  have h := (indirect_jmp_wrap c7S0 0x30FF c7S1 0xAB 0x77
    (by decide) (by decide)).1 (by decide) (by decide)
  exact ⟨h.trans (by decide), by decide, by decide⟩

/-- C9 witness: pushing `0x7B` with `s = 0x00` writes to `0x100` and wraps
`s` to `0xFF` without faulting; popping with `s = 0xFF` wraps `s` to `0x00`
first and reads the byte at `0x100`. -/
theorem stack_push_pop_wrap_witness :
    CPU.stackPush c9S0 0x7B = .ok c9S0' ∧ c9S0'.r.s = 0xFF ∧
    c9S0'.mmu.read 0x100 = .ok 0x7B ∧
    CPU.stackPop c9S1 = .ok (0x42, c9S1') ∧ c9S1'.r.s = 0x00 := by
  have hpush := stack_push_pop_wrap.1 c9S0 0x7B c9S0' (by decide)
  have hpop := stack_push_pop_wrap.2 c9S1 0x42 c9S1' (by decide)
  exact ⟨by decide, hpush.1.trans (by decide), by decide, by decide,
    hpop.1.trans (by decide)⟩
